import Mathlib

/-!
Verification development for the dns-collector repository.

The Go sources under `dnsutils/dns.go` (wire-format decoder) and
`subprocessors/filtering.go` (drop rules) are shallowly embedded below.
Machine bytes are modelled as natural numbers taken modulo 256 at every
read; a Go slice access outside the logical bounds of the buffer (a
run-time panic, or a read into the slice's spare capacity beyond its
length) is modelled by the dedicated result `Res.oob`.
-/

/-- The typed decode errors declared at the top of `dnsutils/dns.go`
(`ErrDecodeDnsHeaderTooShort`, `ErrDecodeDnsLabelInvalidOffset`,
`ErrDecodeDnsLabelInvalidOffsetInfiniteLoop`, `ErrDecodeDnsLabelTooShort`,
`ErrDecodeQuestionQtypeTooShort`, `ErrDecodeDnsAnswerTooShort`,
`ErrDecodeDnsAnswerRdataTooShort`). -/
inductive DnsError where
  | headerTooShort
  | labelInvalidOffset
  | labelInfiniteLoop
  | labelTooShort
  | qtypeTooShort
  | answerTooShort
  | answerRdataTooShort
deriving DecidableEq, Repr

/-- Result of a Go function returning `(value, error)`.  Go returns a value
in every case, so the error constructor also carries the value that the Go
code returns alongside the error (for example `_ParseLabels` returns
`"", 0` with every error).  `oob` marks an out-of-bounds slice access:
Go would panic, or silently read past the slice length into its spare
capacity; either way no `(value, error)` pair is produced. -/
inductive Res (α : Type) where
  | ok : α → Res α
  | err : DnsError → α → Res α
  | oob : Res α
deriving DecidableEq, Repr

/-- Read of `payload[i]` under a bound check already performed by the Go
code: the byte value at index `i` (entries of the model list are reduced
mod 256, matching Go's `byte`). -/
def byteAt (p : List Nat) (i : Nat) : Nat := p.getD i 0 % 256

/-- Read of `payload[i]` where the access itself may be out of bounds:
`none` models the Go panic / capacity read. -/
def getByte (p : List Nat) (i : Nat) : Option Nat := p[i]?.map (· % 256)

/-- Model of `binary.BigEndian.Uint16`: for byte values `b0`, `b1` the Go
expression `uint16(b1) | uint16(b0)<<8` equals `b0 * 256 + b1`. -/
def buint16 (b0 b1 : Nat) : Nat := b0 * 256 + b1

/-- Model of `binary.BigEndian.Uint32` on four byte values. -/
def buint32 (b0 b1 b2 b3 : Nat) : Nat :=
  b0 * 16777216 + b1 * 65536 + b2 * 256 + b3

/-- `const DnsLen = 12`. -/
def DnsLen : Nat := 12

/-- The `DnsHeader` struct of `dnsutils/dns.go` (all fields Go `int`,
always non-negative here). -/
structure DnsHeader where
  Id : Nat
  Qr : Nat
  Opcode : Nat
  Aa : Nat
  Tc : Nat
  Rd : Nat
  Ra : Nat
  Z : Nat
  Ad : Nat
  Cd : Nat
  Rcode : Nat
  Qdcount : Nat
  Ancount : Nat
  Nscount : Nat
  Arcount : Nat
deriving DecidableEq, Repr

/-- The zero value `DnsHeader{}` that `DecodeDns` returns on error. -/
def zeroHeader : DnsHeader := ⟨0, 0, 0, 0, 0, 0, 0, 0, 0, 0, 0, 0, 0, 0, 0⟩

/-- `DecodeDns`: header decode.  Fails with the header-too-short error on
buffers of fewer than 12 bytes; otherwise reads the id, splits the second
16-bit word into the flag fields with the exact shifts and masks of the Go
code, and reads the four section counts. -/
def DecodeDns (payload : List Nat) : Res DnsHeader :=
  if payload.length < DnsLen then
    .err .headerTooShort zeroHeader
  else
    let w := buint16 (byteAt payload 2) (byteAt payload 3)
    .ok
      { Id := buint16 (byteAt payload 0) (byteAt payload 1)
        Qr := w >>> 15
        Opcode := (w >>> 11) &&& 15
        Aa := (w >>> 10) &&& 1
        Tc := (w >>> 9) &&& 1
        Rd := (w >>> 8) &&& 1
        Ra := (w >>> 7) &&& 1
        Z := (w >>> 6) &&& 1
        Ad := (w >>> 5) &&& 1
        Cd := (w >>> 4) &&& 1
        Rcode := w &&& 15
        Qdcount := buint16 (byteAt payload 4) (byteAt payload 5)
        Ancount := buint16 (byteAt payload 6) (byteAt payload 7)
        Nscount := buint16 (byteAt payload 8) (byteAt payload 9)
        Arcount := buint16 (byteAt payload 10) (byteAt payload 11) }

/-- The `Rdatatypes` map: numeric record-type code to symbolic name. -/
def Rdatatypes (n : Nat) : Option String :=
  match n with
  | 0 => some "NONE"
  | 1 => some "A"
  | 2 => some "NS"
  | 3 => some "MD"
  | 4 => some "MF"
  | 5 => some "CNAME"
  | 6 => some "SOA"
  | 7 => some "MB"
  | 8 => some "MG"
  | 9 => some "MR"
  | 10 => some "NULL"
  | 11 => some "WKS"
  | 12 => some "PTR"
  | 13 => some "HINFO"
  | 14 => some "MINFO"
  | 15 => some "MX"
  | 16 => some "TXT"
  | 17 => some "RP"
  | 18 => some "AFSDB"
  | 19 => some "X25"
  | 20 => some "ISDN"
  | 21 => some "RT"
  | 22 => some "NSAP"
  | 23 => some "NSAP_PTR"
  | 24 => some "SIG"
  | 25 => some "KEY"
  | 26 => some "PX"
  | 27 => some "GPOS"
  | 28 => some "AAAA"
  | 29 => some "LOC"
  | 30 => some "NXT"
  | 33 => some "SRV"
  | 35 => some "NAPTR"
  | 36 => some "KX"
  | 37 => some "CERT"
  | 38 => some "A6"
  | 39 => some "DNAME"
  | 41 => some "OPT"
  | 42 => some "APL"
  | 43 => some "DS"
  | 44 => some "SSHFP"
  | 45 => some "IPSECKEY"
  | 46 => some "RRSIG"
  | 47 => some "NSEC"
  | 48 => some "DNSKEY"
  | 49 => some "DHCID"
  | 50 => some "NSEC3"
  | 51 => some "NSEC3PARAM"
  | 52 => some "TSLA"
  | 53 => some "SMIMEA"
  | 55 => some "HIP"
  | 56 => some "NINFO"
  | 59 => some "CDS"
  | 60 => some "CDNSKEY"
  | 61 => some "OPENPGPKEY"
  | 62 => some "CSYNC"
  | 64 => some "SVCB"
  | 65 => some "HTTPS"
  | 99 => some "SPF"
  | 103 => some "UNSPEC"
  | 108 => some "EUI48"
  | 109 => some "EUI64"
  | 249 => some "TKEY"
  | 250 => some "TSIG"
  | 251 => some "IXFR"
  | 252 => some "AXFR"
  | 253 => some "MAILB"
  | 254 => some "MAILA"
  | 255 => some "ANY"
  | 256 => some "URI"
  | 257 => some "CAA"
  | 258 => some "AVC"
  | 259 => some "AMTRELAY"
  | 32768 => some "TA"
  | 32769 => some "DLV"
  | _ => none

/-- The `Rcodes` map: numeric response code to symbolic name. -/
def Rcodes (n : Nat) : Option String :=
  match n with
  | 0 => some "NOERROR"
  | 1 => some "FORMERR"
  | 2 => some "SERVFAIL"
  | 3 => some "NXDOMAIN"
  | 4 => some "NOIMP"
  | 5 => some "REFUSED"
  | 6 => some "YXDOMAIN"
  | 7 => some "YXRRSET"
  | 8 => some "NXRRSET"
  | 9 => some "NOTAUTH"
  | 10 => some "NOTZONE"
  | 11 => some "DSOTYPENI"
  | 16 => some "BADSIG"
  | 17 => some "BADKEY"
  | 18 => some "BADTIME"
  | 19 => some "BADMODE"
  | 20 => some "BADNAME"
  | 21 => some "BADALG"
  | 22 => some "BADTRUNC"
  | 23 => some "BADCOOKIE"
  | _ => none

/-- `RdatatypeToString`: table lookup defaulting to `"UNKNOWN"`. -/
def RdatatypeToString (rrtype : Nat) : String :=
  (Rdatatypes rrtype).getD "UNKNOWN"

/-- `RcodeToString`: table lookup defaulting to `"UNKNOWN"`. -/
def RcodeToString (rcode : Nat) : String :=
  (Rcodes rcode).getD "UNKNOWN"

/-- Go `string(bytes)`: bytes rendered as the corresponding code points. -/
def bytesToString (l : List Nat) : String :=
  String.mk (l.map (fun b => Char.ofNat (b % 256)))

/-- The compression-pointer target: the 14 low bits of the big-endian
16-bit word at offset `o` (`binary.BigEndian.Uint16(payload[offset:offset+2]) & 16383`). -/
def ptrTarget (p : List Nat) (o : Nat) : Nat :=
  buint16 (byteAt p o) (byteAt p (o + 1)) &&& 16383

theorem ptrTarget_lt (p : List Nat) (o : Nat) : ptrTarget p o < 16384 := by
  have h : buint16 (byteAt p o) (byteAt p (o + 1)) &&& 16383 ≤ 16383 :=
    Nat.and_le_right
  unfold ptrTarget
  omega

/-- `_ParseLabels`: the recursive label/pointer loop.  `pointers` is the
visited set of pointer targets (Go `map[uint16]int`; targets are 14-bit so
they live in `Fin 16384`).  The loop accumulates decoded labels in
`labels`; a zero length byte terminates the name, a byte with the two top
bits set is a 2-byte compression pointer whose target is resolved
recursively after the cycle check, and any other byte is a literal label
length.  Reading the second pointer byte when the first is the buffer's
last byte is an out-of-bounds slice access in the Go code (`payload[offset
: offset+2]`), modelled by `Res.oob`.  The recursion terminates because a
pointer follow strictly grows the visited set (bounded by 16384) and a
literal label strictly advances the offset toward the end of the buffer:
this measure is exactly the Go code's own termination argument. -/
def labelsGo (payload : List Nat) (pointers : Finset (Fin 16384)) (offset : Nat)
    (labels : List String) : Res (String × Nat) :=
  if _hoff : payload.length ≤ offset then
    .err .labelInvalidOffset ("", 0)
  else if byteAt payload offset = 0 then
    .ok (String.intercalate "." labels, offset + 1)
  else if _hptr : byteAt payload offset >>> 6 = 3 then
    match getByte payload (offset + 1) with
    | none => .oob
    | some _ =>
      if _hmem : (⟨ptrTarget payload offset, ptrTarget_lt payload offset⟩ : Fin 16384) ∈ pointers then
        .err .labelInfiniteLoop ("", 0)
      else
        match labelsGo payload
            (insert ⟨ptrTarget payload offset, ptrTarget_lt payload offset⟩ pointers)
            (ptrTarget payload offset) [] with
        | .ok (label, _) => .ok (String.intercalate "." (labels ++ [label]), offset + 2)
        | .err e _ => .err e ("", 0)
        | .oob => .oob
  else if payload.length ≤ offset + byteAt payload offset + 1 then
    .err .labelTooShort ("", 0)
  else
    labelsGo payload pointers (offset + byteAt payload offset + 1)
      (labels ++ [bytesToString ((payload.drop (offset + 1)).take (byteAt payload offset))])
termination_by (16384 - pointers.card, payload.length - offset)
decreasing_by
· apply Prod.Lex.left
  have h1 : (insert (⟨ptrTarget payload offset, ptrTarget_lt payload offset⟩ : Fin 16384)
      pointers).card = pointers.card + 1 := Finset.card_insert_of_not_mem _hmem
  have h2 : (insert (⟨ptrTarget payload offset, ptrTarget_lt payload offset⟩ : Fin 16384)
      pointers).card ≤ 16384 := by
    have h3 := Finset.card_le_univ (insert
      (⟨ptrTarget payload offset, ptrTarget_lt payload offset⟩ : Fin 16384) pointers)
    rwa [Fintype.card_fin] at h3
  omega
· apply Prod.Lex.right
  omega

/-- `ParseLabels`: public entry point, fresh visited set per name decode. -/
def ParseLabels (offset : Nat) (payload : List Nat) : Res (String × Nat) :=
  labelsGo payload ∅ offset []

/-- Rendering of a Go `int32` under `%d`: values with the top bit set
print as negative. -/
def int32Str (n : Nat) : String :=
  if n < 2147483648 then toString n else "-" ++ toString (4294967296 - n)

/-- Lowercase hexadecimal rendering (Go `%x`). -/
def hexStr (n : Nat) : String := String.mk (Nat.toDigits 16 n)

/-- `ParseA`: dot-joined decimal rendering of every byte of the rdata. -/
def ParseA (r : List Nat) : Res String :=
  .ok (String.intercalate "." (r.map (fun b => toString (b % 256))))

/-- `ParseAAAA` inner loop: `for i := 0; i < len(rdata); i += 2` reading
the 16-bit group `rdata[i:i+2]`; an odd-length rdata makes the final
2-byte read run past the slice (modelled `oob`). -/
def parseAAAAGo (rdata : List Nat) (i : Nat) (acc : List String) : Res String :=
  if _h : i < rdata.length then
    match getByte rdata (i + 1) with
    | none => .oob
    | some b1 =>
      parseAAAAGo rdata (i + 2) (acc ++ [hexStr (buint16 (byteAt rdata i) b1)])
  else
    .ok (String.intercalate ":" acc)
termination_by rdata.length - i
decreasing_by
· omega

/-- `ParseAAAA`: colon-joined lowercase hex 16-bit groups. -/
def ParseAAAA (rdata : List Nat) : Res String := parseAAAAGo rdata 0 []

/-- `ParseCNAME`: one embedded name at the rdata's absolute offset. -/
def ParseCNAME (rdata_offset : Nat) (payload : List Nat) : Res String :=
  match ParseLabels rdata_offset payload with
  | .ok (cname, _) => .ok cname
  | .err e _ => .err e ""
  | .oob => .oob

/-- `ParseMX`: 2-byte preference (`payload[rdata_offset:rdata_offset+2]`,
out of bounds if fewer than 2 bytes remain) then an embedded name. -/
def ParseMX (rdata_offset : Nat) (payload : List Nat) : Res String :=
  match getByte payload rdata_offset, getByte payload (rdata_offset + 1) with
  | some b0, some b1 =>
    match ParseLabels (rdata_offset + 2) payload with
    | .ok (host, _) => .ok (toString (buint16 b0 b1) ++ " " ++ host)
    | .err e _ => .err e ""
    | .oob => .oob
  | _, _ => .oob

/-- `ParseSRV`: priority, weight, port (three big-endian 16-bit reads)
then an embedded name. -/
def ParseSRV (rdata_offset : Nat) (payload : List Nat) : Res String :=
  if payload.length < rdata_offset + 6 then .oob
  else
    match ParseLabels (rdata_offset + 6) payload with
    | .ok (target, _) =>
      .ok (toString (buint16 (byteAt payload rdata_offset) (byteAt payload (rdata_offset + 1)))
        ++ " " ++ toString (buint16 (byteAt payload (rdata_offset + 2)) (byteAt payload (rdata_offset + 3)))
        ++ " " ++ toString (buint16 (byteAt payload (rdata_offset + 4)) (byteAt payload (rdata_offset + 5)))
        ++ " " ++ target)
    | .err e _ => .err e ""
    | .oob => .oob

/-- `ParseNS`: one embedded name. -/
def ParseNS (rdata_offset : Nat) (payload : List Nat) : Res String :=
  match ParseLabels rdata_offset payload with
  | .ok (ns, _) => .ok ns
  | .err e _ => .err e ""
  | .oob => .oob

/-- `ParseTXT`: `length := int(rdata[0])` (panics on empty rdata) then
`rdata[1 : length+1]` (reads past the rdata slice when the declared length
exceeds the remaining bytes).  Both out-of-bounds accesses are `oob`. -/
def ParseTXT (rdata : List Nat) : Res String :=
  match getByte rdata 0 with
  | none => .oob
  | some length =>
    if rdata.length < length + 1 then .oob
    else .ok (bytesToString ((rdata.drop 1).take length))

/-- `ParsePTR`: one embedded name. -/
def ParsePTR (rdata_offset : Nat) (payload : List Nat) : Res String :=
  match ParseLabels rdata_offset payload with
  | .ok (ptr, _) => .ok ptr
  | .err e _ => .err e ""
  | .oob => .oob

/-- `ParseSOA`: two embedded names, then five 4-byte fields read from
`payload[offset:]` with no length check — fewer than 20 remaining bytes is
an out-of-bounds slice access (`rdata[0:4]` … `rdata[16:20]`). -/
def ParseSOA (rdata_offset : Nat) (payload : List Nat) : Res String :=
  match ParseLabels rdata_offset payload with
  | .err e _ => .err e ""
  | .oob => .oob
  | .ok (primaryNS, offset1) =>
    match ParseLabels offset1 payload with
    | .err e _ => .err e ""
    | .oob => .oob
    | .ok (respMailbox, offset) =>
      if payload.length < offset + 20 then .oob
      else
        .ok (primaryNS ++ " " ++ respMailbox ++ " "
          ++ toString (buint32 (byteAt payload offset) (byteAt payload (offset + 1))
              (byteAt payload (offset + 2)) (byteAt payload (offset + 3)))
          ++ " " ++ int32Str (buint32 (byteAt payload (offset + 4)) (byteAt payload (offset + 5))
              (byteAt payload (offset + 6)) (byteAt payload (offset + 7)))
          ++ " " ++ int32Str (buint32 (byteAt payload (offset + 8)) (byteAt payload (offset + 9))
              (byteAt payload (offset + 10)) (byteAt payload (offset + 11)))
          ++ " " ++ int32Str (buint32 (byteAt payload (offset + 12)) (byteAt payload (offset + 13))
              (byteAt payload (offset + 14)) (byteAt payload (offset + 15)))
          ++ " " ++ toString (buint32 (byteAt payload (offset + 16)) (byteAt payload (offset + 17))
              (byteAt payload (offset + 18)) (byteAt payload (offset + 19))))

/-- `ParseRdata`: dispatch on the symbolic type name; every name not in
the switch falls through to the literal `"-"` with no error. -/
def ParseRdata (rdatatype : String) (rdata : List Nat) (payload : List Nat)
    (rdata_offset : Nat) : Res String :=
  if rdatatype = "A" then ParseA rdata
  else if rdatatype = "AAAA" then ParseAAAA rdata
  else if rdatatype = "CNAME" then ParseCNAME rdata_offset payload
  else if rdatatype = "MX" then ParseMX rdata_offset payload
  else if rdatatype = "SRV" then ParseSRV rdata_offset payload
  else if rdatatype = "NS" then ParseNS rdata_offset payload
  else if rdatatype = "TXT" then ParseTXT rdata
  else if rdatatype = "PTR" then ParsePTR rdata_offset payload
  else if rdatatype = "SOA" then ParseSOA rdata_offset payload
  else .ok "-"

/-- `DecodeQuestion`: one name from the fixed offset 12, then a 4-byte
check for QTYPE + QCLASS.  On error Go returns `"", 0, 0`. -/
def DecodeQuestion (payload : List Nat) : Res (String × Nat × Nat) :=
  match ParseLabels DnsLen payload with
  | .err e _ => .err e ("", 0, 0)
  | .oob => .oob
  | .ok (qname, offset) =>
    if payload.length - offset < 4 then
      .err .qtypeTooShort ("", 0, 0)
    else
      .ok (qname, buint16 (byteAt payload offset) (byteAt payload (offset + 1)), offset + 4)

/-- The `DnsAnswer` struct, with the fields the decoder fills in. -/
structure DnsAnswer where
  Name : String
  Rdatatype : String
  Class : Nat
  Ttl : Nat
  Rdata : String
deriving DecidableEq, Repr

/-- The `DecodeAnswer` loop body, one recursive step per loop iteration
(`i` counts the remaining iterations, `acc` the answers list so far).
Note the OPT (type 41) branch: the Go `continue` skips the
`offset = offset_next + 10 + int(rdlength)` update at the bottom of the
loop, so an OPT record does not advance the section cursor. -/
def answersGo (payload : List Nat) : Nat → Nat → List DnsAnswer →
    Res (List DnsAnswer × Nat)
  | 0, offset, acc => .ok (acc, offset)
  | i + 1, offset, acc =>
    match ParseLabels offset payload with
    | .err e _ => .err e (acc, offset)
    | .oob => .oob
    | .ok (name, offsetNext) =>
      if payload.length - offsetNext < 10 then .err .answerTooShort (acc, offset)
      else
        let t := buint16 (byteAt payload offsetNext) (byteAt payload (offsetNext + 1))
        let class_ := buint16 (byteAt payload (offsetNext + 2)) (byteAt payload (offsetNext + 3))
        let ttl := buint32 (byteAt payload (offsetNext + 4)) (byteAt payload (offsetNext + 5))
          (byteAt payload (offsetNext + 6)) (byteAt payload (offsetNext + 7))
        let rdlength := buint16 (byteAt payload (offsetNext + 8)) (byteAt payload (offsetNext + 9))
        if payload.length - (offsetNext + 10) < rdlength then
          .err .answerRdataTooShort (acc, offset)
        else
          let rdata := (payload.drop (offsetNext + 10)).take rdlength
          if t = 41 then answersGo payload i offset acc
          else
            match ParseRdata (RdatatypeToString t) rdata payload (offsetNext + 10) with
            | .err e _ => .err e (acc, offset)
            | .oob => .oob
            | .ok parsed =>
              answersGo payload i (offsetNext + 10 + rdlength)
                (acc ++ [⟨name, RdatatypeToString t, class_, ttl, parsed⟩])

/-- `DecodeAnswer`: decode `ancount` records starting at `start_offset`. -/
def DecodeAnswer (ancount start_offset : Nat) (payload : List Nat) :
    Res (List DnsAnswer × Nat) :=
  answersGo payload ancount start_offset []

/-- Modelled from the spec: the message-type marker constants `DnsQuery`
and `DnsReply` are declared in a dnsutils file that is not among the
provided sources; only their distinctness is relevant to the filtering
rules, which compare `dm.DNS.Type` against them. -/
def DnsQuery : String := "query"

/-- Modelled from the spec: the reply-side marker, distinct from
`DnsQuery`. -/
def DnsReply : String := "reply"

/-- Modelled from the spec: the filtering section of the configuration
(`config.Subprocessors.Filtering`), with the fields `CheckIfDrop` and the
loaders read. -/
structure FilteringSettings where
  LogQueries : Bool
  LogReplies : Bool
  DropRcodes : List String
  DropFqdnFile : String
  DropDomainFile : String
  DropQueryIpFile : String

/-- Modelled from the spec: the `Subprocessors` section of the config. -/
structure SubprocessorsConfig where
  Filtering : FilteringSettings

/-- Modelled from the spec: the parts of `dnsutils.Config` the filtering
subprocessor consults. -/
structure Config where
  Subprocessors : SubprocessorsConfig

/-- Modelled from the spec: the DNS part of a decoded message, with the
fields `CheckIfDrop` reads (`Type`, `Rcode`, `Qname`). -/
structure DnsInfo where
  Qtype : String
  Rcode : String
  Qname : String
  MsgType : String

/-- Modelled from the spec: network metadata attached by the ingestion
layer; `CheckIfDrop` reads the query IP. -/
structure NetworkInfo where
  QueryIp : String

/-- Modelled from the spec: the decoded-message aggregate handed to the
filtering stage (`dnsutils.DnsMessage`).  The Go field `DNS.Type` is
called `MsgType` here because `Type` is a Lean keyword. -/
structure DnsMessage where
  DNS : DnsInfo
  NetworkInfo : NetworkInfo

/-- The `FilteringProcessor` state: the configuration plus the loaded
drop lists.  The compiled domain regexes (`map[string]*regexp.Regexp`)
are modelled as match predicates on the query name. -/
structure FilteringProcessor where
  config : Config
  dropDomains : Bool
  listQueryIp : List String
  listFqdns : List String
  listDomainsRegex : List (String → Bool)

/-- `CheckIfDrop` of `subprocessors/filtering.go`: the query/reply gates
first, then the rcode list, then the query-IP list, then the domain
lists; each rule returns `true` immediately when it fires. -/
def CheckIfDrop (p : FilteringProcessor) (dm : DnsMessage) : Bool :=
  if !p.config.Subprocessors.Filtering.LogQueries && dm.DNS.MsgType == DnsQuery then
    true
  else if !p.config.Subprocessors.Filtering.LogReplies && dm.DNS.MsgType == DnsReply then
    true
  else if p.config.Subprocessors.Filtering.DropRcodes.any (fun v => v == dm.DNS.Rcode) then
    true
  else if decide (0 < p.listQueryIp.length)
      && p.listQueryIp.any (fun k => dm.NetworkInfo.QueryIp == k) then
    true
  else if p.dropDomains
      && (p.listFqdns.any (fun k => dm.DNS.Qname == k)
        || p.listDomainsRegex.any (fun r => r dm.DNS.Qname)) then
    true
  else
    false

/-- A pointer chain of `N` links: offsets `0, 2, 4, …, 2(N-1)` each hold a
2-byte compression pointer to the next even offset, and offset `2N` holds
the terminating zero byte.  `chainFrom k n` builds the part of the chain
that starts at absolute offset `2k`. -/
def chainFrom : Nat → Nat → List Nat
  | _, 0 => [0]
  | k, n + 1 => 192 :: (2 * (k + 1)) :: chainFrom (k + 1) n

/-- The full chain payload with `N` pointer links. -/
def chain (N : Nat) : List Nat := chainFrom 0 N

/-- A three-record answer section: an ordinary A record (offsets 0-14),
an OPT record (offsets 15-25), and a second A record (offsets 26-40). -/
def optSandwich : List Nat :=
  [0, 0, 1, 0, 1, 0, 0, 0, 0, 0, 4, 1, 2, 3, 4,
   0, 0, 41, 0, 0, 0, 0, 0, 0, 0, 0,
   0, 0, 1, 0, 1, 0, 0, 0, 0, 0, 4, 9, 9, 9, 9]

/-- Modelled from the spec (§4.4 offset bookkeeping): a record's end
offset is exactly name-end + 10 + rdlength, computed without consulting
the rdata contents, so pointer-followed bytes inside rdata cannot move
it.  `none` when the record does not decode structurally. -/
def specRecordEnd (payload : List Nat) (off : Nat) : Option Nat :=
  match ParseLabels off payload with
  | .ok (_, offsetNext) =>
    if payload.length - offsetNext < 10 then none
    else
      if payload.length - (offsetNext + 10) <
          buint16 (byteAt payload (offsetNext + 8)) (byteAt payload (offsetNext + 9)) then
        none
      else
        some (offsetNext + 10 +
          buint16 (byteAt payload (offsetNext + 8)) (byteAt payload (offsetNext + 9)))
  | _ => none

/-- Modelled from the spec (§4.4): the cursor position after `M` records,
each advancing the cursor by exactly its name-end + 10 + rdlength. -/
def specSectionEnd (payload : List Nat) : Nat → Nat → Option Nat
  | 0, off => some off
  | M + 1, off =>
    match specRecordEnd payload off with
    | some off2 => specSectionEnd payload M off2
    | none => none

/-- A single-record answer section holding only an OPT record. -/
def optOnly : List Nat := [0, 0, 41, 0, 0, 0, 0, 0, 0, 0, 0]

/-- A single-record answer section holding one ordinary A record. -/
def soloRecord : List Nat := [0, 0, 1, 0, 1, 0, 0, 0, 0, 0, 4, 1, 2, 3, 4]

theorem getByte_eq_some {p : List Nat} {i : Nat} (h : i < p.length) :
    getByte p i = some (byteAt p i) := by
  simp [getByte, byteAt, List.getD_eq_getElem?_getD, List.getElem?_eq_getElem h]

theorem getByte_eq_none {p : List Nat} {i : Nat} (h : p.length ≤ i) :
    getByte p i = none := by
  simp [getByte, List.getElem?_eq_none h]

theorem byteAt_lt (p : List Nat) (i : Nat) : byteAt p i < 256 :=
  Nat.mod_lt _ (by omega)

theorem labelsGo_invalid {p : List Nat} {S : Finset (Fin 16384)} {offset : Nat}
    {labels : List String} (h : p.length ≤ offset) :
    labelsGo p S offset labels = .err .labelInvalidOffset ("", 0) := by
  unfold labelsGo
  simp [h]

theorem labelsGo_zero {p : List Nat} {S : Finset (Fin 16384)} {offset : Nat}
    {labels : List String} (h1 : offset < p.length) (h2 : byteAt p offset = 0) :
    labelsGo p S offset labels = .ok (String.intercalate "." labels, offset + 1) := by
  unfold labelsGo
  simp [show ¬ p.length ≤ offset from by omega, h2]

theorem shift6_ne_zero {b : Nat} (h : b >>> 6 = 3) : b ≠ 0 := by
  intro h0
  rw [h0] at h
  simp at h

theorem labelsGo_ptr_oob {p : List Nat} {S : Finset (Fin 16384)} {offset : Nat}
    {labels : List String} (h1 : offset < p.length)
    (h2 : byteAt p offset >>> 6 = 3) (h3 : p.length ≤ offset + 1) :
    labelsGo p S offset labels = .oob := by
  unfold labelsGo
  simp [show ¬ p.length ≤ offset from by omega, shift6_ne_zero h2, h2,
    getByte_eq_none h3]

theorem labelsGo_ptr {p : List Nat} {S : Finset (Fin 16384)} {offset : Nat}
    {labels : List String} (h1 : offset + 1 < p.length)
    (h2 : byteAt p offset >>> 6 = 3) :
    labelsGo p S offset labels =
      if (⟨ptrTarget p offset, ptrTarget_lt p offset⟩ : Fin 16384) ∈ S then
        .err .labelInfiniteLoop ("", 0)
      else
        match labelsGo p (insert ⟨ptrTarget p offset, ptrTarget_lt p offset⟩ S)
            (ptrTarget p offset) [] with
        | .ok (label, _) => .ok (String.intercalate "." (labels ++ [label]), offset + 2)
        | .err e _ => .err e ("", 0)
        | .oob => .oob := by
  conv_lhs => rw [labelsGo]
  simp [show ¬ p.length ≤ offset from by omega, shift6_ne_zero h2, h2,
    getByte_eq_some h1]

theorem labelsGo_short {p : List Nat} {S : Finset (Fin 16384)} {offset : Nat}
    {labels : List String} (h1 : offset < p.length) (h2 : byteAt p offset ≠ 0)
    (h3 : ¬ byteAt p offset >>> 6 = 3)
    (h4 : p.length ≤ offset + byteAt p offset + 1) :
    labelsGo p S offset labels = .err .labelTooShort ("", 0) := by
  unfold labelsGo
  simp [show ¬ p.length ≤ offset from by omega, h2, h3, h4]

theorem labelsGo_literal {p : List Nat} {S : Finset (Fin 16384)} {offset : Nat}
    {labels : List String} (h1 : offset < p.length) (h2 : byteAt p offset ≠ 0)
    (h3 : ¬ byteAt p offset >>> 6 = 3)
    (h4 : offset + byteAt p offset + 1 < p.length) :
    labelsGo p S offset labels =
      labelsGo p S (offset + byteAt p offset + 1)
        (labels ++ [bytesToString ((p.drop (offset + 1)).take (byteAt p offset))]) := by
  conv_lhs => rw [labelsGo]
  simp [show ¬ p.length ≤ offset from by omega, h2, h3,
    show ¬ p.length ≤ offset + byteAt p offset + 1 from by omega]

theorem and15_eq_mod (x : Nat) : x &&& 15 = x % 16 := by
  have h := Nat.and_pow_two_sub_one_eq_mod x 4
  norm_num at h
  exact h

/-- C5: `DecodeDns` fails with the header-too-short error and the zero
header on buffers shorter than 12 bytes, and otherwise returns, with no
error, the big-endian id from bytes 0-1, the second word split
most-significant bit first as QR(1), OPCODE(4), AA(1), TC(1), RD(1),
RA(1), Z(1), AD(1), CD(1), RCODE(4), and the four big-endian counts from
bytes 4-11. -/
theorem decodeDns_contract :
    (∀ p : List Nat, p.length < 12 → DecodeDns p = .err .headerTooShort zeroHeader) ∧
    (∀ (p : List Nat) (b : Nat → Nat),
      (∀ i, i < 12 → p[i]? = some (b i)) → (∀ i, i < 12 → b i < 256) →
      DecodeDns p = .ok
        { Id := b 0 * 256 + b 1
          Qr := (b 2 * 256 + b 3) / 32768 % 2
          Opcode := (b 2 * 256 + b 3) / 2048 % 16
          Aa := (b 2 * 256 + b 3) / 1024 % 2
          Tc := (b 2 * 256 + b 3) / 512 % 2
          Rd := (b 2 * 256 + b 3) / 256 % 2
          Ra := (b 2 * 256 + b 3) / 128 % 2
          Z := (b 2 * 256 + b 3) / 64 % 2
          Ad := (b 2 * 256 + b 3) / 32 % 2
          Cd := (b 2 * 256 + b 3) / 16 % 2
          Rcode := (b 2 * 256 + b 3) % 16
          Qdcount := b 4 * 256 + b 5
          Ancount := b 6 * 256 + b 7
          Nscount := b 8 * 256 + b 9
          Arcount := b 10 * 256 + b 11 }) := by
  constructor
  · intro p h
    unfold DecodeDns
    rw [if_pos]
    simpa [DnsLen] using h
  · intro p b hb hlt
    have hlen : 11 < p.length := by
      by_contra hcon
      have h11 := hb 11 (by omega)
      rw [List.getElem?_eq_none (by omega)] at h11
      exact Option.noConfusion h11
    have hbyte : ∀ i, i < 12 → byteAt p i = b i := by
      intro i hi
      rw [byteAt, List.getD_eq_getElem?_getD, hb i hi]
      exact Nat.mod_eq_of_lt (hlt i hi)
    have h2 := hlt 2 (by omega)
    have h3 := hlt 3 (by omega)
    unfold DecodeDns
    rw [if_neg (by simp only [DnsLen]; omega)]
    simp only [buint16, Nat.shiftRight_eq_div_pow, Nat.and_one_is_mod, and15_eq_mod,
      Res.ok.injEq, DnsHeader.mk.injEq]
    rw [hbyte 0 (by omega), hbyte 1 (by omega), hbyte 2 (by omega), hbyte 3 (by omega),
      hbyte 4 (by omega), hbyte 5 (by omega), hbyte 6 (by omega), hbyte 7 (by omega),
      hbyte 8 (by omega), hbyte 9 (by omega), hbyte 10 (by omega), hbyte 11 (by omega)]
    norm_num
    omega

theorem decodeDns_contract_witness :
    (List.length [(0 : Nat), 0] < 12 ∧
      DecodeDns [0, 0] = .err .headerTooShort zeroHeader) ∧
    DecodeDns [1, 2, 3, 4, 0, 1, 0, 2, 0, 3, 0, 4] =
      .ok ⟨258, 0, 0, 0, 1, 1, 0, 0, 0, 0, 4, 1, 2, 3, 4⟩ := by
  refine ⟨⟨by decide, decodeDns_contract.1 [0, 0] (by decide)⟩, ?_⟩
  have h := decodeDns_contract.2 [1, 2, 3, 4, 0, 1, 0, 2, 0, 3, 0, 4]
    (fun i => [1, 2, 3, 4, 0, 1, 0, 2, 0, 3, 0, 4].getD i 0) (by decide) (by decide)
  rw [h]
  decide

/-- C9: `DecodeDns` depends only on the first 12 bytes — two payloads of
length at least 12 that agree on indices 0 through 11 decode to the same
header. -/
theorem decodeDns_first12 : ∀ (p q : List Nat), 12 ≤ p.length → 12 ≤ q.length →
    (∀ i, i < 12 → p[i]? = q[i]?) → DecodeDns p = DecodeDns q := by
  intro p q hp hq h
  have hbyte : ∀ i, i < 12 → byteAt p i = byteAt q i := by
    intro i hi
    rw [byteAt, byteAt, List.getD_eq_getElem?_getD, List.getD_eq_getElem?_getD, h i hi]
  unfold DecodeDns
  rw [if_neg (by simp only [DnsLen]; omega), if_neg (by simp only [DnsLen]; omega)]
  rw [hbyte 0 (by omega), hbyte 1 (by omega), hbyte 2 (by omega), hbyte 3 (by omega),
    hbyte 4 (by omega), hbyte 5 (by omega), hbyte 6 (by omega), hbyte 7 (by omega),
    hbyte 8 (by omega), hbyte 9 (by omega), hbyte 10 (by omega), hbyte 11 (by omega)]

theorem decodeDns_first12_witness :
    DecodeDns [1, 2, 3, 4, 0, 1, 0, 2, 0, 3, 0, 4, 77, 88] =
      DecodeDns [1, 2, 3, 4, 0, 1, 0, 2, 0, 3, 0, 4, 201] :=
  decodeDns_first12 _ _ (by decide) (by decide) (by decide)

/-- C8: a record-type code absent from the `Rdatatypes` table renders as
`"UNKNOWN"` and falls through `ParseRdata` to the literal `"-"` with no
error, regardless of rdata; an rcode absent from the `Rcodes` table
renders as `"UNKNOWN"`; both lookups are total. -/
theorem unknown_type_and_rcode :
    (∀ (code : Nat) (rdata payload : List Nat) (off : Nat), Rdatatypes code = none →
      ParseRdata (RdatatypeToString code) rdata payload off = .ok "-") ∧
    (∀ rc : Nat, Rcodes rc = none → RcodeToString rc = "UNKNOWN") := by
  constructor
  · intro code rdata payload off h
    rw [RdatatypeToString, h]
    show ParseRdata "UNKNOWN" rdata payload off = .ok "-"
    unfold ParseRdata
    rw [if_neg (by decide), if_neg (by decide), if_neg (by decide), if_neg (by decide),
      if_neg (by decide), if_neg (by decide), if_neg (by decide), if_neg (by decide),
      if_neg (by decide)]
  · intro rc h
    rw [RcodeToString, h]
    rfl

theorem unknown_type_and_rcode_witness :
    ParseRdata (RdatatypeToString 54321) [1, 2, 3] [0] 0 = .ok "-" ∧
    RcodeToString 12 = "UNKNOWN" :=
  ⟨unknown_type_and_rcode.1 54321 [1, 2, 3] [0] 0 rfl,
    unknown_type_and_rcode.2 12 rfl⟩

/-- C10: the query and reply gates of `CheckIfDrop` fire first: a query
message with `LogQueries = false` is dropped, and a reply message with
`LogReplies = false` is dropped, whatever the rcode list, query-IP list,
or domain lists hold. -/
theorem checkIfDrop_gates : ∀ (p : FilteringProcessor) (dm : DnsMessage),
    (dm.DNS.MsgType = DnsQuery → p.config.Subprocessors.Filtering.LogQueries = false →
      CheckIfDrop p dm = true) ∧
    (dm.DNS.MsgType = DnsReply → p.config.Subprocessors.Filtering.LogReplies = false →
      CheckIfDrop p dm = true) := by
  intro p dm
  constructor
  · intro h1 h2
    unfold CheckIfDrop
    rw [h1, h2]
    simp [DnsQuery]
  · intro h1 h2
    unfold CheckIfDrop
    rw [h1, h2]
    simp [DnsQuery, DnsReply]

theorem checkIfDrop_gates_witness :
    CheckIfDrop ⟨⟨⟨⟨false, false, ["NOERROR"], "", "", ""⟩⟩⟩, true,
        ["1.2.3.4"], ["x.com"], []⟩
      ⟨⟨"A", "NOERROR", "x.org", DnsQuery⟩, ⟨"9.9.9.9"⟩⟩ = true ∧
    CheckIfDrop ⟨⟨⟨⟨false, false, ["NOERROR"], "", "", ""⟩⟩⟩, true,
        ["1.2.3.4"], ["x.com"], []⟩
      ⟨⟨"A", "NOERROR", "x.org", DnsReply⟩, ⟨"9.9.9.9"⟩⟩ = true :=
  ⟨(checkIfDrop_gates _ _).1 rfl rfl, (checkIfDrop_gates _ _).2 rfl rfl⟩

/-- C2 (divergence witness): the label resolver's pointer branch reads
`payload[offset : offset+2]` after checking only `offset`, so a
compression-pointer byte in the last position of the buffer makes the Go
code touch a byte past the end (`oob`) instead of returning the
invalid-offset error the spec promises; and a literal label that fits
exactly in the remaining bytes (here length 1 with exactly 1 byte after
it) is rejected with the label-too-short error even though the buffer
contains the declared number of following bytes, because the code
requires `offset + length + 1 < len(payload)` strictly. -/
theorem parseLabels_bounds_eval :
    ParseLabels 0 [192] = Res.oob ∧
    ParseLabels 0 [1, 65] = .err .labelTooShort ("", 0) := by
  constructor
  · rw [ParseLabels]
    exact labelsGo_ptr_oob (by decide) (by decide) (by decide)
  · rw [ParseLabels]
    exact labelsGo_short (by decide) (by decide) (by decide) (by decide)

/-- C6 (divergence witness): `ParseTXT` reads `rdata[0]` with no emptiness
check and slices `rdata[1 : length+1]` with no length check, and
`ParseSOA` slices 20 bytes of fixed fields with no remaining-length
check, so empty TXT rdata, a TXT length byte exceeding the rdata, and a
SOA whose names leave fewer than 20 bytes all access memory outside the
buffers instead of returning a rendered string or a typed error. -/
theorem rdataParsers_oob_eval :
    ParseTXT [] = Res.oob ∧ ParseTXT [5] = Res.oob ∧
    ParseSOA 0 [0, 0] = Res.oob := by
  refine ⟨rfl, rfl, ?_⟩
  have h1 : ParseLabels 0 [0, 0] = .ok ("", 1) := by
    rw [ParseLabels, labelsGo_zero (by decide) (by decide)]
    decide
  have h2 : ParseLabels 1 [0, 0] = .ok ("", 2) := by
    rw [ParseLabels, labelsGo_zero (by decide) (by decide)]
    decide
  unfold ParseSOA
  rw [h1]
  simp [h2]

/-- C7: `DecodeQuestion` decodes one name at fixed offset 12; when the
name decode succeeds with end offset `off`, fewer than 4 remaining bytes
give the qtype-too-short error, and otherwise the result is the qname,
the big-endian 16-bit qtype at `off`, and `off + 4`, with no error. -/
theorem decodeQuestion_contract : ∀ (payload : List Nat) (qname : String) (off : Nat),
    ParseLabels 12 payload = .ok (qname, off) →
    (payload.length - off < 4 → DecodeQuestion payload = .err .qtypeTooShort ("", 0, 0)) ∧
    (4 ≤ payload.length - off →
      DecodeQuestion payload =
        .ok (qname, byteAt payload off * 256 + byteAt payload (off + 1), off + 4)) := by
  intro payload qname off h
  constructor
  · intro hlt
    unfold DecodeQuestion
    simp only [DnsLen]
    rw [h]
    simp [hlt]
  · intro hge
    unfold DecodeQuestion
    simp only [DnsLen]
    rw [h]
    simp [show ¬ payload.length - off < 4 from by omega, buint16]

theorem decodeQuestion_contract_witness :
    DecodeQuestion [0, 0, 0, 0, 0, 0, 0, 0, 0, 0, 0, 0, 0, 0, 1, 0, 1] =
      .ok ("", 1, 17) ∧
    DecodeQuestion [0, 0, 0, 0, 0, 0, 0, 0, 0, 0, 0, 0, 0] =
      .err .qtypeTooShort ("", 0, 0) := by
  constructor
  · have h := (decodeQuestion_contract [0, 0, 0, 0, 0, 0, 0, 0, 0, 0, 0, 0, 0, 0, 1, 0, 1]
      "" 13 (by rw [ParseLabels, labelsGo_zero (by decide) (by decide)]; decide)).2
      (by decide)
    rw [h]
    decide
  · exact (decodeQuestion_contract [0, 0, 0, 0, 0, 0, 0, 0, 0, 0, 0, 0, 0]
      "" 13 (by rw [ParseLabels, labelsGo_zero (by decide) (by decide)]; decide)).1
      (by decide)

theorem intercalate_dot_nil : String.intercalate "." [] = "" := by decide

theorem intercalate_dot_single_empty : String.intercalate "." [""] = "" := by decide

/-- Helper for the pointer-cycle theorem: a pair of offsets whose pointer
bytes target each other (the self-referential case is `a = b`). -/
theorem cycle_infinite_loop : ∀ (p : List Nat) (a b : Nat),
    a + 1 < p.length → b + 1 < p.length →
    byteAt p a >>> 6 = 3 → byteAt p b >>> 6 = 3 →
    ptrTarget p a = b → ptrTarget p b = a →
    ParseLabels a p = .err .labelInfiniteLoop ("", 0) := by
  intro p a b ha hb hpa hpb hta htb
  have hb16 : b < 16384 := hta ▸ ptrTarget_lt p a
  have ha16 : a < 16384 := htb ▸ ptrTarget_lt p b
  have hfa : (⟨ptrTarget p a, ptrTarget_lt p a⟩ : Fin 16384) = ⟨b, hb16⟩ :=
    Fin.ext hta
  have hfb : (⟨ptrTarget p b, ptrTarget_lt p b⟩ : Fin 16384) = ⟨a, ha16⟩ :=
    Fin.ext htb
  rw [ParseLabels, labelsGo_ptr ha hpa, if_neg (Finset.not_mem_empty _), hfa, hta,
    labelsGo_ptr hb hpb, hfb, htb]
  by_cases hab : a = b
  · subst hab
    rw [if_pos (Finset.mem_insert_self _ _)]
  · rw [if_neg (by simp only [Finset.mem_insert, Finset.not_mem_empty, or_false,
        Fin.mk.injEq]; exact hab)]
    rw [labelsGo_ptr ha hpa, hfa, hta]
    rw [if_pos (Finset.mem_insert_of_mem (Finset.mem_insert_self _ _))]

theorem chainFrom_length : ∀ n k, (chainFrom k n).length = 2 * n + 1 := by
  intro n
  induction n with
  | zero => intro k; rfl
  | succ n ih =>
    intro k
    simp only [chainFrom, List.length_cons, ih (k + 1)]
    omega

theorem chainFrom_getD_even : ∀ n k j, j < n → (chainFrom k n).getD (2 * j) 0 = 192 := by
  intro n
  induction n with
  | zero => intro k j h; omega
  | succ n ih =>
    intro k j h
    cases j with
    | zero => rfl
    | succ j =>
      have h2 : 2 * (j + 1) = 2 * j + 1 + 1 := by ring
      simp only [chainFrom, h2, List.getD_cons_succ]
      exact ih (k + 1) j (by omega)

theorem chainFrom_getD_odd : ∀ n k j, j < n →
    (chainFrom k n).getD (2 * j + 1) 0 = 2 * (k + j + 1) := by
  intro n
  induction n with
  | zero => intro k j h; omega
  | succ n ih =>
    intro k j h
    cases j with
    | zero => rfl
    | succ j =>
      have h2 : 2 * (j + 1) + 1 = 2 * j + 1 + 1 + 1 := by ring
      simp only [chainFrom, h2, List.getD_cons_succ]
      rw [ih (k + 1) j (by omega)]
      ring_nf

theorem chainFrom_getD_end : ∀ n k, (chainFrom k n).getD (2 * n) 0 = 0 := by
  intro n
  induction n with
  | zero => intro k; rfl
  | succ n ih =>
    intro k
    have h2 : 2 * (n + 1) = 2 * n + 1 + 1 := by ring
    simp only [chainFrom, h2, List.getD_cons_succ]
    exact ih (k + 1)

/-- Helper for the chain theorem: decoding from link `i` of the chain
succeeds whenever the visited set avoids the not-yet-visited links.  The
induction is on the number `d` of links remaining. -/
theorem chain_resolve (N : Nat) (hN : N ≤ 127) :
    ∀ (d i : Nat), i + d = N →
    ∀ S : Finset (Fin 16384),
    (∀ x : Fin 16384, x ∈ S → ∀ j, i < j → j ≤ N → x.val ≠ 2 * j) →
    labelsGo (chain N) S (2 * i) [] =
      .ok ("", if i = N then 2 * N + 1 else 2 * i + 2) := by
  intro d
  induction d with
  | zero =>
    intro i hi S hS
    have hiN : i = N := by omega
    subst hiN
    have hlen : 2 * i < (chain i).length := by
      rw [chain, chainFrom_length]; omega
    have hb0 : byteAt (chain i) (2 * i) = 0 := by
      rw [byteAt, chain, chainFrom_getD_end]
    rw [labelsGo_zero hlen hb0]
    simp [intercalate_dot_nil]
  | succ d ih =>
    intro i hi S hS
    have hiN : i < N := by omega
    have hlt16 : 2 * (i + 1) < 16384 := by omega
    have hlen2 : 2 * i + 1 < (chain N).length := by
      rw [chain, chainFrom_length]; omega
    have hb0 : byteAt (chain N) (2 * i) = 192 := by
      rw [byteAt, chain, chainFrom_getD_even N 0 i hiN]
    have hb1 : byteAt (chain N) (2 * i + 1) = 2 * (i + 1) := by
      rw [byteAt, chain, chainFrom_getD_odd N 0 i hiN]
      have h0i : 2 * (0 + i + 1) = 2 * (i + 1) := by ring
      rw [h0i]
      omega
    have hptr : byteAt (chain N) (2 * i) >>> 6 = 3 := by rw [hb0]; decide
    rw [labelsGo_ptr hlen2 hptr]
    have htgt : ptrTarget (chain N) (2 * i) = 2 * (i + 1) := by
      rw [ptrTarget, hb0, hb1, buint16]
      have hmask := Nat.and_pow_two_sub_one_eq_mod (192 * 256 + 2 * (i + 1)) 14
      norm_num at hmask
      rw [hmask]
      omega
    have hfin : (⟨ptrTarget (chain N) (2 * i), ptrTarget_lt _ _⟩ : Fin 16384) =
        ⟨2 * (i + 1), hlt16⟩ := Fin.ext htgt
    rw [hfin, htgt]
    rw [if_neg (fun hmem => hS _ hmem (i + 1) (by omega) (by omega) rfl)]
    have hS' : ∀ x : Fin 16384, x ∈ insert (⟨2 * (i + 1), hlt16⟩ : Fin 16384) S →
        ∀ j, i + 1 < j → j ≤ N → x.val ≠ 2 * j := by
      intro x hx j hj1 hj2
      rcases Finset.mem_insert.mp hx with h | h
      · rw [h]
        show 2 * (i + 1) ≠ 2 * j
        omega
      · exact hS x h j (by omega) hj2
    rw [ih (i + 1) (by omega) _ hS']
    simp [show i ≠ N from by omega, intercalate_dot_single_empty]

/-- C3: the visited-set mechanism makes `ParseLabels` total.  The Lean
model is defined by well-founded recursion on the code's own measure (the
visited set grows at every pointer follow, the offset advances at every
literal label), so every call terminates; moreover a self-referential or
mutually-referential pointer pair is rejected with the dedicated
infinite-loop error, while a chain of `N` distinct non-cyclic pointers
(the `chain` family, for any `1 ≤ N ≤ 127`) resolves successfully with the
correct final offset (the 2 bytes of the first pointer). -/
theorem parseLabels_cycle_and_chain :
    (∀ (p : List Nat) (a b : Nat), a + 1 < p.length → b + 1 < p.length →
      byteAt p a >>> 6 = 3 → byteAt p b >>> 6 = 3 →
      ptrTarget p a = b → ptrTarget p b = a →
      ParseLabels a p = .err .labelInfiniteLoop ("", 0)) ∧
    (∀ N : Nat, 1 ≤ N → N ≤ 127 → ParseLabels 0 (chain N) = .ok ("", 2)) := by
  constructor
  · exact cycle_infinite_loop
  · intro N h1 h2
    rw [ParseLabels]
    have h := chain_resolve N h2 N 0 (by omega) ∅
      (fun x hx => absurd hx (Finset.not_mem_empty x))
    rw [show (0 : Nat) = 2 * 0 from rfl]
    rw [h]
    simp [show 0 ≠ N from by omega]

theorem parseLabels_cycle_and_chain_witness :
    ParseLabels 0 [192, 2, 192, 0] = .err .labelInfiniteLoop ("", 0) ∧
    ParseLabels 0 (chain 3) = .ok ("", 2) :=
  ⟨parseLabels_cycle_and_chain.1 [192, 2, 192, 0] 0 2 (by decide) (by decide)
      (by decide) (by decide) (by decide) (by decide),
    parseLabels_cycle_and_chain.2 3 (by decide) (by decide)⟩

/-- Step equation for the answer loop when the record parsed at `offset`
has type OPT (41): the Go `continue` skips the offset update, so the
iteration count decreases while offset and accumulator stay unchanged. -/
theorem answersGo_step_opt {p : List Nat} {i offset : Nat} {acc : List DnsAnswer}
    {name : String} {offsetNext : Nat}
    (h : ParseLabels offset p = .ok (name, offsetNext))
    (h10 : ¬ p.length - offsetNext < 10)
    (ht : buint16 (byteAt p offsetNext) (byteAt p (offsetNext + 1)) = 41)
    (hrd : ¬ p.length - (offsetNext + 10) <
      buint16 (byteAt p (offsetNext + 8)) (byteAt p (offsetNext + 9))) :
    answersGo p (i + 1) offset acc = answersGo p i offset acc := by
  conv_lhs => rw [answersGo]
  rw [h]
  simp [h10, ht, hrd]

/-- Step equation for the answer loop on an ordinary record whose rdata
parses successfully: the record is appended and the cursor advances by
name-end + 10 + rdlength. -/
theorem answersGo_step_rec {p : List Nat} {i offset : Nat} {acc : List DnsAnswer}
    {name : String} {offsetNext : Nat} {parsed : String}
    (h : ParseLabels offset p = .ok (name, offsetNext))
    (h10 : ¬ p.length - offsetNext < 10)
    (ht : ¬ buint16 (byteAt p offsetNext) (byteAt p (offsetNext + 1)) = 41)
    (hrd : ¬ p.length - (offsetNext + 10) <
      buint16 (byteAt p (offsetNext + 8)) (byteAt p (offsetNext + 9)))
    (hp : ParseRdata
      (RdatatypeToString (buint16 (byteAt p offsetNext) (byteAt p (offsetNext + 1))))
      ((p.drop (offsetNext + 10)).take
        (buint16 (byteAt p (offsetNext + 8)) (byteAt p (offsetNext + 9))))
      p (offsetNext + 10) = .ok parsed) :
    answersGo p (i + 1) offset acc =
      answersGo p i
        (offsetNext + 10 + buint16 (byteAt p (offsetNext + 8)) (byteAt p (offsetNext + 9)))
        (acc ++ [⟨name,
          RdatatypeToString (buint16 (byteAt p offsetNext) (byteAt p (offsetNext + 1))),
          buint16 (byteAt p (offsetNext + 2)) (byteAt p (offsetNext + 3)),
          buint32 (byteAt p (offsetNext + 4)) (byteAt p (offsetNext + 5))
            (byteAt p (offsetNext + 6)) (byteAt p (offsetNext + 7)), parsed⟩]) := by
  conv_lhs => rw [answersGo]
  rw [h]
  simp [h10, ht, hrd, hp]

/-- C1 (divergence witness): on a section holding an A record, an OPT
record and another A record, `DecodeAnswer` returns only 1 answer and a
final offset of 15 — the end of the first record.  The `continue` in the
OPT branch skips the cursor update, so iterations 2 and 3 both re-parse
the same OPT record at offset 15 and the third record is never reached;
the OPT record's bytes never advance the cursor. -/
theorem decodeAnswer_opt_sandwich :
    DecodeAnswer 3 0 optSandwich =
      .ok ([⟨"", "A", 1, 0, "1.2.3.4"⟩], 15) ∧
    (15 : Nat) ≠ 41 := by
  have hL0 : ParseLabels 0 optSandwich = .ok ("", 1) := by
    rw [ParseLabels, labelsGo_zero (by decide) (by decide)]
    decide
  have hL15 : ParseLabels 15 optSandwich = .ok ("", 16) := by
    rw [ParseLabels, labelsGo_zero (by decide) (by decide)]
    decide
  refine ⟨?_, by decide⟩
  have hpr : ParseRdata
      (RdatatypeToString (buint16 (byteAt optSandwich 1) (byteAt optSandwich 2)))
      ((optSandwich.drop 11).take (buint16 (byteAt optSandwich 9) (byteAt optSandwich 10)))
      optSandwich 11 = .ok "1.2.3.4" := by decide
  have s1 : answersGo optSandwich 3 0 [] =
      answersGo optSandwich 2 15 [⟨"", "A", 1, 0, "1.2.3.4"⟩] :=
    answersGo_step_rec hL0 (by decide) (by decide) (by decide) hpr
  have s2 : answersGo optSandwich 2 15 [⟨"", "A", 1, 0, "1.2.3.4"⟩] =
      answersGo optSandwich 1 15 [⟨"", "A", 1, 0, "1.2.3.4"⟩] :=
    answersGo_step_opt hL15 (by decide) (by decide) (by decide)
  have s3 : answersGo optSandwich 1 15 [⟨"", "A", 1, 0, "1.2.3.4"⟩] =
      answersGo optSandwich 0 15 [⟨"", "A", 1, 0, "1.2.3.4"⟩] :=
    answersGo_step_opt hL15 (by decide) (by decide) (by decide)
  rw [DecodeAnswer]
  exact s1.trans (s2.trans (s3.trans rfl))

theorem answersGo_length_le (p : List Nat) : ∀ (M off : Nat)
    (acc as : List DnsAnswer) (final : Nat),
    answersGo p M off acc = .ok (as, final) → as.length ≤ acc.length + M := by
  intro M
  induction M with
  | zero =>
    intro off acc as final h
    rw [answersGo] at h
    simp only [Res.ok.injEq, Prod.mk.injEq] at h
    obtain ⟨h1, h2⟩ := h
    subst h1
    omega
  | succ M ih =>
    intro off acc as final h
    rw [answersGo] at h
    cases hpl : ParseLabels off p with
    | err e v => rw [hpl] at h; simp at h
    | oob => rw [hpl] at h; simp at h
    | ok pr =>
      obtain ⟨name, offsetNext⟩ := pr
      rw [hpl] at h
      dsimp only at h
      by_cases h10 : p.length - offsetNext < 10
      · rw [if_pos h10] at h; simp at h
      · rw [if_neg h10] at h
        by_cases hrd : p.length - (offsetNext + 10) <
            buint16 (byteAt p (offsetNext + 8)) (byteAt p (offsetNext + 9))
        · rw [if_pos hrd] at h; simp at h
        · rw [if_neg hrd] at h
          by_cases ht : buint16 (byteAt p offsetNext) (byteAt p (offsetNext + 1)) = 41
          · rw [if_pos ht] at h
            have hle := ih off acc as final h
            omega
          · rw [if_neg ht] at h
            cases hpr : ParseRdata
                (RdatatypeToString (buint16 (byteAt p offsetNext) (byteAt p (offsetNext + 1))))
                ((p.drop (offsetNext + 10)).take
                  (buint16 (byteAt p (offsetNext + 8)) (byteAt p (offsetNext + 9))))
                p (offsetNext + 10) with
            | err e v => rw [hpr] at h; simp at h
            | oob => rw [hpr] at h; simp at h
            | ok parsed =>
              rw [hpr] at h
              dsimp only at h
              have hle := ih _ _ _ _ h
              simp at hle
              omega

theorem answersGo_specSectionEnd (p : List Nat) : ∀ (M off : Nat)
    (acc as : List DnsAnswer) (final : Nat),
    answersGo p M off acc = .ok (as, final) → as.length = acc.length + M →
    specSectionEnd p M off = some final := by
  intro M
  induction M with
  | zero =>
    intro off acc as final h hlen
    rw [answersGo] at h
    simp only [Res.ok.injEq, Prod.mk.injEq] at h
    obtain ⟨h1, h2⟩ := h
    rw [specSectionEnd, h2]
  | succ M ih =>
    intro off acc as final h hlen
    rw [answersGo] at h
    rw [specSectionEnd]
    unfold specRecordEnd
    cases hpl : ParseLabels off p with
    | err e v => rw [hpl] at h; simp at h
    | oob => rw [hpl] at h; simp at h
    | ok pr =>
      obtain ⟨name, offsetNext⟩ := pr
      rw [hpl] at h
      dsimp only at h
      dsimp only
      by_cases h10 : p.length - offsetNext < 10
      · rw [if_pos h10] at h; simp at h
      · rw [if_neg h10] at h
        rw [if_neg h10]
        by_cases hrd : p.length - (offsetNext + 10) <
            buint16 (byteAt p (offsetNext + 8)) (byteAt p (offsetNext + 9))
        · rw [if_pos hrd] at h; simp at h
        · rw [if_neg hrd] at h
          rw [if_neg hrd]
          dsimp only
          by_cases ht : buint16 (byteAt p offsetNext) (byteAt p (offsetNext + 1)) = 41
          · rw [if_pos ht] at h
            have hle := answersGo_length_le p M off acc as final h
            omega
          · rw [if_neg ht] at h
            cases hpr : ParseRdata
                (RdatatypeToString (buint16 (byteAt p offsetNext) (byteAt p (offsetNext + 1))))
                ((p.drop (offsetNext + 10)).take
                  (buint16 (byteAt p (offsetNext + 8)) (byteAt p (offsetNext + 9))))
                p (offsetNext + 10) with
            | err e v => rw [hpr] at h; simp at h
            | oob => rw [hpr] at h; simp at h
            | ok parsed =>
              rw [hpr] at h
              dsimp only at h
              refine ih _ _ _ _ h ?_
              simp
              omega

/-- C4 (counterexample): a section of `M = 1` records consisting of one
OPT record decodes successfully with final cursor 0 — the start offset —
while the claim's formula (start plus the sum over all records of
name-bytes + 10 + rdlength, OPT included) gives 11: the OPT record's
bytes are not added to the cursor. -/
theorem decodeAnswer_opt_counterexample :
    DecodeAnswer 1 0 optOnly = .ok ([], 0) ∧
    specSectionEnd optOnly 1 0 = some 11 := by
  have hL : ParseLabels 0 optOnly = .ok ("", 1) := by
    rw [ParseLabels, labelsGo_zero (by decide) (by decide)]
    decide
  constructor
  · rw [DecodeAnswer]
    exact (answersGo_step_opt hL (by decide) (by decide) (by decide)).trans rfl
  · have hre : specRecordEnd optOnly 0 = some 11 := by
      unfold specRecordEnd
      rw [hL]
      decide
    conv_lhs => rw [specSectionEnd]
    rw [hre]
    rfl

/-- C4 (amended): whenever `DecodeAnswer` succeeds having appended all
`M` records (`as.length = M`, which is exactly the absence of OPT
records, since only the OPT branch skips the append), the final cursor
equals the `M`-fold iteration of the per-record advance
name-end + 10 + rdlength from the start offset; the iteration never
consults the rdata contents, so compression pointers followed inside
rdata cannot move the section cursor. -/
theorem decodeAnswer_offset_integrity : ∀ (payload : List Nat) (M start : Nat)
    (as : List DnsAnswer) (final : Nat),
    DecodeAnswer M start payload = .ok (as, final) → as.length = M →
    specSectionEnd payload M start = some final := by
  intro payload M start as final h hlen
  exact answersGo_specSectionEnd payload M start [] as final h (by simpa using hlen)

theorem decodeAnswer_offset_integrity_witness :
    specSectionEnd soloRecord 1 0 = some 15 := by
  have hL : ParseLabels 0 soloRecord = .ok ("", 1) := by
    rw [ParseLabels, labelsGo_zero (by decide) (by decide)]
    decide
  have hpr : ParseRdata
      (RdatatypeToString (buint16 (byteAt soloRecord 1) (byteAt soloRecord 2)))
      ((soloRecord.drop 11).take (buint16 (byteAt soloRecord 9) (byteAt soloRecord 10)))
      soloRecord 11 = .ok "1.2.3.4" := by decide
  have hda : DecodeAnswer 1 0 soloRecord = .ok ([⟨"", "A", 1, 0, "1.2.3.4"⟩], 15) := by
    rw [DecodeAnswer]
    exact (answersGo_step_rec hL (by decide) (by decide) (by decide) hpr).trans rfl
  exact decodeAnswer_offset_integrity soloRecord 1 0 _ 15 hda (by decide)
